import Mathlib

/-!
Verification of the synapse-indexer core against its specification.

Shallow embedding of:
- `src/indexer/processEvents.js` (payload extraction, swap-pool resolution,
  mint correction, fee adjustment, upsert into the document store);
- the forward indexing loop `indexForward` (lock flag, checkpoint window,
  processing, checkpoint advancement).

Modelling conventions:
- JS strings stay `String`; block numbers and timestamps are `Nat`;
  token amounts are `Int` (ethers `BigNumber` is arbitrary precision, and the
  plain JS arithmetic the code performs on small amounts is exact).
- A Mongo/Mongoose document is a record of optional fields; `none` models an
  absent field (an `undefined` entry of an update object is stripped by the
  driver and does not touch the stored field).  `findOneAndUpdate` with a
  plain object performs a per-field set of exactly the provided fields.
- Fallible external calls (RPC, pool probes, event processing) are modelled
  with explicit outcomes; a thrown JS exception is an `error`/flag outcome.
-/

/-- Field update as performed by the document store: the update object's value
wins when present, otherwise the stored value is kept. -/
def ov {α : Type} (a r : Option α) : Option α :=
  match a with
  | some v => some v
  | none => r

/-- The persisted `BridgeTransaction` document / a partial update object for
it.  Field set from the data model and from the two record literals built in
`processEvents` (OUT at lines 167-179, IN at lines 284-296). -/
structure BridgeTxnArgs where
  fromTxnHash : Option String := none
  toTxnHash : Option String := none
  fromAddress : Option String := none
  toAddress : Option String := none
  fromChainId : Option Nat := none
  toChainId : Option Nat := none
  sentValue : Option Int := none
  sentTokenAddress : Option String := none
  sentTokenSymbol : Option String := none
  receivedValue : Option Int := none
  receivedTokenAddress : Option String := none
  receivedTokenSymbol : Option String := none
  swapSuccess : Option Bool := none
  kappa : Option String := none
  sentTime : Option Nat := none
  receivedTime : Option Nat := none
  pending : Option Bool := none
deriving DecidableEq

/-- The document store keyed by kappa (`BridgeTransaction.findOne({kappa})`). -/
def Db : Type := String → Option BridgeTxnArgs

/-- The empty document store. -/
def dbEmpty : Db := fun _ => none

/-- A store holding exactly one document under key `k`. -/
def singletonDb (k : String) (r : BridgeTxnArgs) : Db :=
  fun k' => if k' = k then some r else none

/-- `findOneAndUpdate(filter, args)` with a plain update object: every field
present in `args` is set, every other stored field is kept. -/
def mergeArgs (stored args : BridgeTxnArgs) : BridgeTxnArgs where
  fromTxnHash := ov args.fromTxnHash stored.fromTxnHash
  toTxnHash := ov args.toTxnHash stored.toTxnHash
  fromAddress := ov args.fromAddress stored.fromAddress
  toAddress := ov args.toAddress stored.toAddress
  fromChainId := ov args.fromChainId stored.fromChainId
  toChainId := ov args.toChainId stored.toChainId
  sentValue := ov args.sentValue stored.sentValue
  sentTokenAddress := ov args.sentTokenAddress stored.sentTokenAddress
  sentTokenSymbol := ov args.sentTokenSymbol stored.sentTokenSymbol
  receivedValue := ov args.receivedValue stored.receivedValue
  receivedTokenAddress := ov args.receivedTokenAddress stored.receivedTokenAddress
  receivedTokenSymbol := ov args.receivedTokenSymbol stored.receivedTokenSymbol
  swapSuccess := ov args.swapSuccess stored.swapSuccess
  kappa := ov args.kappa stored.kappa
  sentTime := ov args.sentTime stored.sentTime
  receivedTime := ov args.receivedTime stored.receivedTime
  pending := ov args.pending stored.pending

/-- `upsertBridgeTxnInDb(kappa, args)` (processEvents.js lines 113-128):
look the document up by kappa; absent, insert `args` as a new document;
present, update it with the fields of `args`. -/
def upsertBridgeTxnInDb (db : Db) (kappa : String) (args : BridgeTxnArgs) : Db :=
  fun k =>
    if k = kappa then
      match db kappa with
      | none => some args
      | some existingTxn => some (mergeArgs existingTxn args)
    else db k

/-- Per-token entry of the chain configuration's token registry. -/
structure TokenInfo where
  symbol : String
deriving DecidableEq

/-- Static per-chain configuration (`chainConfig`): chain id and the token
registry `tokens` (address -> token info). -/
structure ChainConfig where
  id : Nat
  tokens : List (String × TokenInfo)

/-- One receipt log, with the two decodings the code applies to it:
`data` is the raw log data read as a number (`BigNumber.from(log.data)`),
`parsedValue` is the `value` argument of the log parsed against the token
contract interface (`parseLog(log).args.value`).  Parsing is modelled as
total; the code paths the claims exercise parse token Transfer logs. -/
structure LogEntry where
  address : String
  data : Int
  parsedValue : Int
deriving DecidableEq

/-- The decoded event arguments object (`eventLogArgs`), a superset dict of
the per-event fields the code reads (`chainId`, `to`, `kappa`, `fee`,
`token`, `amount`, `swapTokenIndex`, `swapSuccess`).  Decoding a raw log
against the bridge interface is an external-collaborator contract; the model
takes the decoded object as the event's input.  The event's `to` argument is
named `toAddr` because `to` is reserved in Lean. -/
structure EventLogArgs where
  chainId : Nat := 0
  toAddr : String := ""
  kappa : String := ""
  fee : Int := 0
  token : String := ""
  amount : Int := 0
  swapTokenIndex : Nat := 0
  swapSuccess : Bool := false

/-- JS truthiness test `!receivedValue` on a numeric-or-null value:
`null`/absent and `0` are falsy. -/
def jsFalsyValue : Option Int → Bool
  | none => true
  | some n => n == 0

/-- JS `log.address === receivedToken` where `receivedToken` may be null:
a string never strictly equals null. -/
def isSameAddress (addr : String) : Option String → Bool
  | some t => addr == t
  | none => false

/-- Reading a named property off a JS primitive string: a plain name such as
`fromAddress` is not a property of a string, so the read yields `undefined`.
This embeds line 156 of processEvents.js, `let {fromAddress} = txn.from`,
which destructures the property `fromAddress` out of the sender-address
string instead of using the string itself. -/
def jsStringNamedProp (_s : String) (_key : String) : Option String := none

/-- Stand-in for `ethers.utils.keccak256(ethers.utils.toUtf8Bytes(h))`: an
abstract collision-free tag of the source transaction hash.  No claim in
this development depends on concrete hash values, only on the kappa being a
function of the transaction hash. -/
def keccak256Utf8 (h : String) : String := "keccak256:" ++ h

/-- `parseTransferLog(logs, chainConfig)` (lines 49-73): find the first log
emitted by an address present in the chain's token registry; its address and
symbol are the sent token.  The sent value is the raw log data, except on
chain id 1 for a non-WETH symbol, where the token contract's own parse of
the log is used (the try/catch around that parse is modelled by the total
`parsedValue`).  Returns `(sentTokenAddress, sentTokenSymbol, sentValue)`,
or `none` when no log matches (the JS function returns `{}`). -/
def parseTransferLog (cc : ChainConfig) : List LogEntry → Option (String × String × Int)
  | [] => none
  | log :: rest =>
    match cc.tokens.lookup log.address with
    | some tokenInfo =>
      let sentValue : Int :=
        if tokenInfo.symbol ≠ "WETH" ∧ cc.id = 1 then log.parsedValue else log.data
      some (log.address, tokenInfo.symbol, sentValue)
    | none => parseTransferLog cc rest

/-- The OUT-direction partial record built at lines 151-179: destination
chain/address from the event args, sender address from the (broken) string
destructure of `txn.from`, sent token/value from `parseTransferLog`, kappa
derived by hashing the source transaction hash, `pending = true`.  Fields
destructured from an empty `parseTransferLog` result are `undefined` and
hence absent from the update object. -/
def mkOutArgs (cc : ChainConfig) (txnHash : String) (txnFrom : String)
    (timestamp : Nat) (evChainId : Nat) (evTo : String)
    (logs : List LogEntry) : BridgeTxnArgs :=
  let transfer := parseTransferLog cc logs
  { fromTxnHash := some txnHash
    fromAddress := jsStringNamedProp txnFrom "fromAddress"
    toAddress := some evTo
    fromChainId := some cc.id
    toChainId := some evChainId
    sentValue := transfer.map (fun t => t.2.2)
    sentTokenAddress := transfer.map (fun t => t.1)
    sentTokenSymbol := transfer.map (fun t => t.2.1)
    kappa := some (keccak256Utf8 txnHash)
    sentTime := some timestamp
    pending := some true }

/-- The IN-direction partial record built at lines 284-296.  A `null`
`receivedToken`/`swapSuccess` is conflated with an absent field here; the
claims only exercise non-null values.  The received symbol is the optional
registry lookup `chainConfig?.tokens[receivedToken]?.symbol`. -/
def mkInArgs (cc : ChainConfig) (txnHash : String) (timestamp : Nat)
    (dataTo : String) (receivedValue : Int) (receivedToken : Option String)
    (swapSuccess : Option Bool) (kappa : String) : BridgeTxnArgs :=
  { toTxnHash := some txnHash
    toAddress := some dataTo
    receivedValue := some receivedValue
    receivedTokenAddress := receivedToken
    receivedTokenSymbol :=
      (receivedToken.bind (fun t => cc.tokens.lookup t)).map (fun ti => ti.symbol)
    swapSuccess := swapSuccess
    kappa := some kappa
    receivedTime := some timestamp
    toChainId := some cc.id
    pending := some false }

/-- The probe loop of `getSwapPoolCoinAddresses` (lines 93-100): starting at
index `i` with `fuel` probes left, call `getToken(i)`; a failing call breaks
out of the loop, a successful call appends the address and continues.  The
pool's `getToken` is the read-only external call, modelled as
`pool : Nat -> Option String` (`none` = the call errors/reverts). -/
def poolCoinScan (pool : Nat → Option String) : Nat → Nat → List String
  | _, 0 => []
  | i, fuel + 1 =>
    match pool i with
    | none => []
    | some a => a :: poolCoinScan pool (i + 1) fuel

/-- `getSwapPoolCoinAddresses` (lines 84-103): probe coin indices 0, 1, 2, …
in order, stop at the first erroring call, hard cap of `1 << 8 = 256`
iterations. -/
def getSwapPoolCoinAddresses (pool : Nat → Option String) : List String :=
  poolCoinScan pool 0 256

/-- The mint-correction rescan (lines 269-276): walk the receipt logs in
order; each iteration overwrites the candidate value/token with the log's
raw data/address, then breaks if `data.amount.gt(receivedValue)`, i.e. if
the candidate value is strictly below the decoded amount.  If no log breaks
the loop, the last log's data/address remain as the candidate. -/
def mintCorrectionLoop (amount : Int) (acc : Int × Option String) :
    List LogEntry → Int × Option String
  | [] => acc
  | log :: rest =>
    if amount > log.data then (log.data, some log.address)
    else mintCorrectionLoop amount (log.data, some log.address) rest

/-- The IN-direction pipeline of `processEvents` (lines 182-296), from the
event-name branch to the final partial record; `none` is the `continue`
outcome (uncovered event name, or no received value found in the logs).

- Swap events decode the triggering call to get the pool (the decoded pool's
  `getToken` is passed in as `poolGetToken`), resolve its coin list, and pick
  the received token by swap outcome (`ChainId.ETH = 1`); the received value
  is left unresolved.
- `TokenWithdraw` resolves `amount - fee` immediately; `TokenMint` leaves the
  value unresolved.
- Chain id 43114 remaps the non-ERC-20 GMX address.
- The fallback scan takes the parsed value of the first log emitted by the
  received token; a still-falsy value skips the event.
- For `TokenMint` the correction rescan always runs: the JS guard
  `receivedValue !== data.amount` compares two distinct BigNumber objects by
  reference and is therefore always true on this path.
- `!swapSuccess` is true for `null` as well as `false`, so every non-successful
  swap AND every direct withdraw/mint leg gets `fee` subtracted here. -/
def processInEvent (cc : ChainConfig) (txnHash : String) (timestamp : Nat)
    (eventName : String) (eventLogArgs : EventLogArgs) (logs : List LogEntry)
    (poolGetToken : Nat → Option String) : Option BridgeTxnArgs :=
  let kappa := eventLogArgs.kappa
  let branchRes : Option (Option Int × Option String × Option Bool) :=
    if eventName = "TokenWithdrawAndRemove" ∨ eventName = "TokenMintAndSwap" then
      let swapPoolAddresses := getSwapPoolCoinAddresses poolGetToken
      let receivedToken : Option String :=
        if eventLogArgs.swapSuccess then
          swapPoolAddresses.get? eventLogArgs.swapTokenIndex
        else if cc.id = 1 then
          some "0x1b84765de8b7566e4ceaf4d0fd3c5af52d3dde4f"
        else
          swapPoolAddresses.get? 0
      some (none, receivedToken, some eventLogArgs.swapSuccess)
    else if eventName = "TokenWithdraw" ∨ eventName = "TokenMint" then
      let receivedValue : Option Int :=
        if eventName = "TokenWithdraw" then
          some (eventLogArgs.amount - eventLogArgs.fee)
        else none
      some (receivedValue, some eventLogArgs.token, none)
    else none
  match branchRes with
  | none => none
  | some (receivedValue0, receivedToken0, swapSuccess) =>
    let receivedToken1 :=
      if cc.id = 43114 ∧ receivedToken0 = some "0x20A9DC684B4d0407EF8C9A302BEAaA18ee15F656"
      then some "0x62edc0692BD897D2295872a9FFCac5425011c661"
      else receivedToken0
    let receivedValue1 : Option Int :=
      if jsFalsyValue receivedValue0 then
        match logs.find? (fun log => isSameAddress log.address receivedToken1) with
        | some log => some log.parsedValue
        | none => receivedValue0
      else receivedValue0
    if jsFalsyValue receivedValue1 then none
    else
      let v1 := receivedValue1.getD 0
      let corrected :=
        if eventName = "TokenMint" then
          mintCorrectionLoop eventLogArgs.amount (v1, receivedToken1) logs
        else (v1, receivedToken1)
      let v2 := if swapSuccess ≠ some true then corrected.1 - eventLogArgs.fee
                else corrected.1
      some (mkInArgs cc txnHash timestamp eventLogArgs.toAddr v2 corrected.2 swapSuccess kappa)

/-- Entry of the static topic table: event name and direction string. -/
structure EventTopicInfo where
  eventName : String
  direction : String
deriving DecidableEq

/-- Modelled from the spec: `getEventForTopic` lives in `src/config/topics.js`,
which is not part of the provided sources.  Spec 4.1: `classify(topicHash) ->
{eventName, direction}`, failing with UnknownTopic when the hash is absent
from the static table.  The table is passed explicitly. -/
def getEventForTopic (table : List (String × EventTopicInfo)) (topicHash : String) :
    Except String EventTopicInfo :=
  match table.lookup topicHash with
  | some info => .ok info
  | none => .error "UnknownTopic"

/-- One event of a batch, with the per-transaction context the loop fetches
for it (transaction, block timestamp, receipt logs) and the decoded data the
external decoders produce for it (event args, the pool contract's `getToken`
behind the swap events' decoded pool address). -/
structure EventModel where
  topic0 : String
  txnHash : String
  txnFrom : String
  timestamp : Nat
  eventLogArgs : EventLogArgs
  logs : List LogEntry
  poolGetToken : Nat → Option String

/-- One iteration of the `processEvents` loop body (lines 131-300): classify
the first topic, then run the OUT or IN pipeline and upsert the resulting
partial record.  A classification failure is an uncaught throw: there is no
try/catch inside the loop, so it propagates as the error outcome.  The OUT
branch (`direction === "OUT"`) computes kappa from the transaction hash; any
other direction takes the IN branch, whose kappa is the decoded event field. -/
def processEvent (table : List (String × EventTopicInfo)) (cc : ChainConfig)
    (db : Db) (ev : EventModel) : Except String Db :=
  match getEventForTopic table ev.topic0 with
  | .error e => .error e
  | .ok eventInfo =>
    if eventInfo.direction = "OUT" then
      let kappa := keccak256Utf8 ev.txnHash
      .ok (upsertBridgeTxnInDb db kappa
        (mkOutArgs cc ev.txnHash ev.txnFrom ev.timestamp
          ev.eventLogArgs.chainId ev.eventLogArgs.toAddr ev.logs))
    else
      match processInEvent cc ev.txnHash ev.timestamp eventInfo.eventName
          ev.eventLogArgs ev.logs ev.poolGetToken with
      | none => .ok db
      | some args => .ok (upsertBridgeTxnInDb db ev.eventLogArgs.kappa args)

/-- `processEvents(contract, chainConfig, events)`: fold the loop body over
the batch in order.  The first component is the error of the first uncaught
throw (`none` when the batch completes); the second is the document store
after the upserts performed so far — upserts of earlier events persist even
when a later event throws. -/
def processEvents (table : List (String × EventTopicInfo)) (cc : ChainConfig)
    (db : Db) : List EventModel → Option String × Db
  | [] => (none, db)
  | ev :: rest =>
    match processEvent table cc db ev with
    | .error e => (some e, db)
    | .ok db2 => processEvents table cc db2 rest

/-- The chain-scoped key-value store slice the loop uses:
`${chain}_IS_INDEXING_FORWARD` (a string flag, compared against `"true"`)
and `${chain}_LATEST_BLOCK_INDEXED` (written as a block number and read back
through `parseInt`; `none` models the absent key, whose falsy read selects
the default). -/
structure RedisState where
  isIndexingForward : Option String
  latestBlockIndexed : Option Nat
deriving DecidableEq

/-- The external world of one `indexForward` invocation: the chain head the
RPC reports, whether the two RPC calls throw, the events the filter query
returns, and the static configuration. -/
structure ChainEnv where
  networkLatestBlock : Nat
  getBlockNumberFails : Bool
  queryFilterFails : Bool
  filteredEvents : List EventModel
  table : List (String × EventTopicInfo)
  cc : ChainConfig

/-- `indexForward(chainConfig)` (src/unnamed/part_000 lines 9-86) over the
chain's redis slice and the document store:
1. `isIndexing === "true"`: skip (mutual exclusion), else set the flag.
2. Read the head; read the checkpoint, defaulting to the head when absent.
3. Checkpoint equal to head: release the flag and return.
4. Window end = min(head, checkpoint + 500); query events; process them.
5. Success: write checkpoint = window end, release the flag.
Any throw inside the try (RPC call, or an uncaught per-event throw inside
`processEvents`) reaches the catch, which releases the flag and leaves the
checkpoint untouched; document-store writes made before the throw persist. -/
def indexForward (env : ChainEnv) (s : RedisState) (db : Db) : RedisState × Db :=
  if s.isIndexingForward = some "true" then (s, db)
  else
    if env.getBlockNumberFails then (⟨some "false", s.latestBlockIndexed⟩, db)
    else
      let networkLatestBlock := env.networkLatestBlock
      let indexedLatestBlock := s.latestBlockIndexed.getD networkLatestBlock
      if indexedLatestBlock = networkLatestBlock then
        (⟨some "false", s.latestBlockIndexed⟩, db)
      else
        let maxBlockToIndexUntil := min networkLatestBlock (indexedLatestBlock + 500)
        if env.queryFilterFails then (⟨some "false", s.latestBlockIndexed⟩, db)
        else
          let res := processEvents env.table env.cc db env.filteredEvents
          if res.1.isSome then (⟨some "false", s.latestBlockIndexed⟩, res.2)
          else (⟨some "false", some maxBlockToIndexUntil⟩, res.2)

/-- The checkpoint value a pass works with after line 33:
the parsed stored value, or the current head when the key is absent. -/
def checkpointRead (env : ChainEnv) (s : RedisState) : Nat :=
  s.latestBlockIndexed.getD env.networkLatestBlock

/-- A pool whose `getToken` always errors. -/
def poolEmpty : Nat → Option String := fun _ => none

/-- A pool answering indices 0, 1, 2 and reverting from index 3 on. -/
def pool3 : Nat → Option String := fun i => if i < 3 then some (toString i) else none

/-- A concrete chain configuration (id 5, one registered token). -/
def ccW : ChainConfig := ⟨5, [("0xSentTok", ⟨"STK"⟩)]⟩

/-- Decoded args of a concrete `TokenWithdraw` event: amount 1000, fee 10. -/
def argsC2 : EventLogArgs :=
  { toAddr := "0xRecipient", kappa := "0xkappaW", fee := 10, token := "0xTokenW", amount := 1000 }

/-- Decoded args of a concrete `TokenMint` event: amount 100, fee 0. -/
def argsC8 : EventLogArgs :=
  { toAddr := "0xTo8", kappa := "0xk8", fee := 0, token := "0xTok", amount := 100 }

/-- Receipt logs of the concrete mint transaction: the first log carries raw
data equal to the decoded amount (100), the second is the token's own log. -/
def logsC8 : List LogEntry := [⟨"0xA", 100, 100⟩, ⟨"0xTok", 7, 50⟩]

/-- A concrete OUT-leg partial record: destination address `0xAAA`,
destination chain 99, sent token found in the registry. -/
def outArgsEx : BridgeTxnArgs :=
  mkOutArgs ccW "0xouttxn" "0xsender" 1111 99 "0xAAA" [⟨"0xSentTok", 500, 500⟩]

/-- A concrete IN-leg partial record for the same kappa key, carrying a
destination address `0xBBB` that differs from the OUT leg's `0xAAA`. -/
def inArgsEx : BridgeTxnArgs :=
  mkInArgs ccW "0xintxn" 2222 "0xBBB" 123 (some "0xRTok") (some false) "kap"

/-- A concrete one-entry topic table. -/
def tableW : List (String × EventTopicInfo) := [("0xT1", ⟨"TokenWithdraw", "IN"⟩)]

/-- An event whose first topic is absent from `tableW`. -/
def evBad : EventModel := ⟨"0xbad", "0xtb", "0xfb", 1, {}, [], poolEmpty⟩

/-- A well-formed `TokenWithdraw` event registered in `tableW`. -/
def evGood : EventModel :=
  ⟨"0xT1", "0xtg", "0xfg", 2,
    { toAddr := "0xgto", kappa := "0xkgood", fee := 1, token := "0xgt", amount := 5 },
    [], poolEmpty⟩

/-- Environment of a first-ever pass: head 100, nothing fails, no events. -/
def envC1 : ChainEnv := ⟨100, false, false, [], [], ccW⟩

/-- Redis state of a chain never indexed before: both keys absent. -/
def s0 : RedisState := ⟨none, none⟩

/-- Environment whose `getBlockNumber` RPC call throws. -/
def envF : ChainEnv := ⟨10, true, false, [], [], ccW⟩

/-- Redis state with a persisted checkpoint at block 3, lock not held. -/
def sF : RedisState := ⟨some "false", some 3⟩

/-- Environment with head 1000 and a clean pass. -/
def envM : ChainEnv := ⟨1000, false, false, [], [], ccW⟩

/-- Redis state with a persisted checkpoint at block 100. -/
def sM : RedisState := ⟨none, some 100⟩

/-- Environment whose reported head (50) is behind the stored checkpoint. -/
def envD : ChainEnv := ⟨50, false, false, [], [], ccW⟩

@[simp] theorem ov_some {α : Type} (v : α) (r : Option α) : ov (some v) r = some v := rfl

@[simp] theorem ov_none_left {α : Type} (r : Option α) : ov none r = r := rfl

@[simp] theorem ov_none_right {α : Type} (a : Option α) : ov a none = a := by
  cases a <;> rfl

theorem ov_self {α : Type} (a : Option α) : ov a a = a := by
  cases a <;> rfl

theorem ov_absorb {α : Type} (a r : Option α) : ov a (ov a r) = ov a r := by
  cases a <;> rfl

theorem mergeArgs_self (a : BridgeTxnArgs) : mergeArgs a a = a := by
  simp [mergeArgs, ov_self]

theorem mergeArgs_absorb (r a : BridgeTxnArgs) :
    mergeArgs (mergeArgs r a) a = mergeArgs r a := by
  simp [mergeArgs, ov_absorb]

/-- Claim C4: the upsert is idempotent — applying the same `{kappa, args}`
update twice leaves the document store identical to applying it once. -/
theorem upsertBridgeTxnInDb_idempotent (db : Db) (kappa : String) (args : BridgeTxnArgs) :
    upsertBridgeTxnInDb (upsertBridgeTxnInDb db kappa args) kappa args
      = upsertBridgeTxnInDb db kappa args := by
  funext k
  by_cases hk : k = kappa
  · subst hk
    simp only [upsertBridgeTxnInDb, if_pos rfl]
    cases hdb : db k with
    | none => simp [mergeArgs_self]
    | some r => simp [mergeArgs_absorb]
  · simp [upsertBridgeTxnInDb, hk]

/-- Claim C3 (counterexample): upserting an IN partial record onto a kappa
holding only the OUT leg does overwrite a field already present from the OUT
leg — the stored `toAddress` `0xAAA` is replaced by the IN leg's `0xBBB`. -/
theorem upsert_in_overwrites_out_toAddress :
    ((upsertBridgeTxnInDb (singletonDb "kap" outArgsEx) "kap" inArgsEx) "kap").map
        (fun r => r.toAddress) = some (some "0xBBB")
    ∧ ((singletonDb "kap" outArgsEx) "kap").map (fun r => r.toAddress) = some (some "0xAAA")
    ∧ (some "0xBBB" : Option String) ≠ some "0xAAA" := by
  exact ⟨rfl, rfl, by decide⟩

/-- Claim C3 (amended): upserting the IN partial record onto a kappa holding
only the OUT leg yields the union of both legs' field sets and sets pending
to false; fields only the OUT leg carries are retained, while every field the
IN record carries — including the overlapping `toAddress`, `toChainId` and
`kappa` — takes the IN leg's value. -/
theorem upsert_in_onto_out_merges (cc cc' : ChainConfig) (k txnHashO txnFromO : String)
    (tsO : Nat) (evChainId : Nat) (evTo : String) (logsO : List LogEntry)
    (txnHashI : String) (tsI : Nat) (dTo : String) (rv : Int) (rt : Option String)
    (ss : Option Bool) :
    upsertBridgeTxnInDb
        (singletonDb k (mkOutArgs cc txnHashO txnFromO tsO evChainId evTo logsO)) k
        (mkInArgs cc' txnHashI tsI dTo rv rt ss k) k
      = some { mkOutArgs cc txnHashO txnFromO tsO evChainId evTo logsO with
                toTxnHash := some txnHashI
                toAddress := some dTo
                receivedValue := some rv
                receivedTokenAddress := rt
                receivedTokenSymbol :=
                  (rt.bind (fun t => cc'.tokens.lookup t)).map (fun ti => ti.symbol)
                swapSuccess := ss
                kappa := some k
                receivedTime := some tsI
                toChainId := some cc'.id
                pending := some false } := by
  simp [upsertBridgeTxnInDb, singletonDb, mkInArgs, mkOutArgs, mergeArgs]

/-- Claim C10: for every OUT event, the `fromAddress` field of the partial
record passed to the upsert is `undefined` regardless of the transaction,
because line 156 destructures `fromAddress` as a property of the sender
address string. -/
theorem out_record_fromAddress_always_absent (cc : ChainConfig) (txnHash txnFrom : String)
    (timestamp : Nat) (evChainId : Nat) (evTo : String) (logs : List LogEntry) :
    (mkOutArgs cc txnHash txnFrom timestamp evChainId evTo logs).fromAddress = none := rfl

/-- Claim C2 (code evaluated at the failing input): for a `TokenWithdraw` IN
leg with decoded amount 1000 and fee 10, the persisted `receivedValue` is
980, not 990 — the withdraw branch computes `amount - fee` and the
`!swapSuccess` adjustment (true, since `swapSuccess` is still null for the
withdraw variant) subtracts the fee a second time. -/
theorem tokenWithdraw_fee_subtracted_twice :
    (processInEvent ccW "0xt2" 1700000000 "TokenWithdraw" argsC2 [] poolEmpty).map
        (fun a => a.receivedValue) = some (some 980)
    ∧ (980 : Int) = 1000 - 10 - 10 := by
  exact ⟨rfl, by decide⟩

theorem poolCoinScan_length_le (pool : Nat → Option String) :
    ∀ (fuel i : Nat), (poolCoinScan pool i fuel).length ≤ fuel := by
  intro fuel
  induction fuel with
  | zero => intro i; simp [poolCoinScan]
  | succ n ih =>
    intro i
    cases h : pool i with
    | none => simp [poolCoinScan, h]
    | some a =>
      have := ih (i + 1)
      simp only [poolCoinScan, h, List.length_cons]
      omega

theorem poolCoinScan_spec (pool : Nat → Option String) (k : Nat) :
    ∀ (i fuel : Nat), k ≤ fuel → pool (i + k) = none →
      (∀ j, j < k → (pool (i + j)).isSome) →
      (poolCoinScan pool i fuel).length = k ∧
      (∀ m, m < k → (poolCoinScan pool i fuel).get? m = pool (i + m)) := by
  induction k with
  | zero =>
    intro i fuel _ hrev _
    have h0 : pool i = none := by simpa using hrev
    cases fuel with
    | zero => exact ⟨rfl, fun m hm => absurd hm (Nat.not_lt_zero m)⟩
    | succ n =>
      simp only [poolCoinScan, h0]
      exact ⟨rfl, fun m hm => absurd hm (Nat.not_lt_zero m)⟩
  | succ k ih =>
    intro i fuel hk hrev hok
    cases fuel with
    | zero => omega
    | succ n =>
      have h0 : (pool (i + 0)).isSome := hok 0 (Nat.succ_pos k)
      rw [Nat.add_zero] at h0
      obtain ⟨a, ha⟩ := Option.isSome_iff_exists.mp h0
      have hrec := ih (i + 1) n (by omega)
        (by rw [show i + 1 + k = i + (k + 1) by omega]; exact hrev)
        (fun j hj => by
          rw [show i + 1 + j = i + (j + 1) by omega]
          exact hok (j + 1) (by omega))
      refine ⟨?_, ?_⟩
      · simp [poolCoinScan, ha, hrec.1]
      · intro m hm
        cases m with
        | zero => simp [poolCoinScan, ha]
        | succ m' =>
          have hm' := hrec.2 m' (by omega)
          simp only [poolCoinScan, ha, List.get?_cons_succ]
          rw [show i + (m' + 1) = i + 1 + m' by omega]
          exact hm'

/-- Claim C9: the swap-pool resolver probes coin indices 0, 1, 2, … in order;
when the first erroring probe is at index `k` (all smaller indices answer),
it stops there and returns the accumulated `k`-element sequence, whose `m`-th
entry is the pool's answer at index `m`; and for every pool the resolver
performs at most 256 iterations, so the result never exceeds 256 entries.
In particular a pool reverting at index 3 yields a 3-element list. -/
theorem getSwapPoolCoinAddresses_spec (pool : Nat → Option String) (k : Nat)
    (hk : k ≤ 256) (hrev : pool k = none) (hok : ∀ j, j < k → (pool j).isSome) :
    (getSwapPoolCoinAddresses pool).length = k ∧
    (∀ m, m < k → (getSwapPoolCoinAddresses pool).get? m = pool m) ∧
    (∀ q : Nat → Option String, (getSwapPoolCoinAddresses q).length ≤ 256) := by
  have h := poolCoinScan_spec pool k 0 256 hk (by simpa using hrev)
    (fun j hj => by simpa using hok j hj)
  exact ⟨h.1, fun m hm => by simpa using h.2 m hm,
    fun q => poolCoinScan_length_le q 256 0⟩

/-- Witness for C9: the pool answering indices 0-2 and reverting at index 3
resolves to a list of exactly 3 coin addresses. -/
theorem getSwapPoolCoinAddresses_spec_witness :
    (getSwapPoolCoinAddresses pool3).length = 3 :=
  (getSwapPoolCoinAddresses_spec pool3 3 (by omega) (by decide)
    (fun j hj => by simp [pool3, hj])).1

theorem mintCorrectionLoop_spec (amount : Int) :
    ∀ (logs : List LogEntry) (acc : Int × Option String) (i : Nat) (l : LogEntry),
      logs.get? i = some l → amount > l.data →
      (∀ j, j < i → ∀ l', logs.get? j = some l' → ¬ amount > l'.data) →
      mintCorrectionLoop amount acc logs = (l.data, some l.address) := by
  intro logs
  induction logs with
  | nil => intro acc i l h _ _; simp at h
  | cons hd tl ih =>
    intro acc i l hget hlt hbefore
    cases i with
    | zero =>
      simp only [List.get?_cons_zero, Option.some.injEq] at hget
      subst hget
      simp [mintCorrectionLoop, hlt]
    | succ i' =>
      have hhd : ¬ amount > hd.data := hbefore 0 (Nat.succ_pos i') hd rfl
      simp only [List.get?_cons_succ] at hget
      simp only [mintCorrectionLoop, if_neg hhd]
      exact ih (hd.data, some hd.address) i' l hget hlt
        (fun j hj l' hgj => hbefore (j + 1) (by omega) l' (by simpa using hgj))

/-- Claim C8 (counterexample): for a `TokenMint` leg with decoded amount 100,
the first rescan candidate has value 100, which does not exceed the amount —
yet the rescan does not stop there: it keeps walking and persists the later
candidate's value 7 and its token.  Only a strictly smaller candidate stops
the loop (`data.amount.gt(receivedValue)`). -/
theorem mint_rescan_skips_equal_candidate :
    (processInEvent ccW "0xt8" 1234 "TokenMint" argsC8 logsC8 poolEmpty).map
        (fun a => (a.receivedValue, a.receivedTokenAddress))
      = some (some 7, some "0xTok")
    ∧ logsC8.get? 0 = some ⟨"0xA", 100, 100⟩
    ∧ (100 : Int) ≤ argsC8.amount
    ∧ (some 7 : Option Int) ≠ some 100 := by
  exact ⟨rfl, rfl, by decide, by decide⟩

/-- Claim C8 (amended): for the mint variant only, the receipt logs are
rescanned in order, each log's raw data/address becoming the candidate
value/token, and the rescan stops at the first candidate whose value is
strictly less than the decoded amount (a candidate equal to the amount does
not stop it); the stopping candidate's value, less the decoded fee, is
persisted together with its address.  (The rescan runs whenever the mint leg
reaches the value scan: the JS disagreement guard compares BigNumber objects
by reference and is always true there.) -/
theorem mint_rescan_stops_at_first_strictly_smaller (cc : ChainConfig)
    (txnHash : String) (ts : Nat) (eargs : EventLogArgs) (logs : List LogEntry)
    (pool : Nat → Option String) (l0 : LogEntry) (i : Nat) (l : LogEntry)
    (hcc : cc.id ≠ 43114)
    (hscan : logs.find? (fun log => isSameAddress log.address (some eargs.token)) = some l0)
    (hv0 : l0.parsedValue ≠ 0)
    (hget : logs.get? i = some l) (hlt : eargs.amount > l.data)
    (hbefore : ∀ j, j < i → ∀ l', logs.get? j = some l' → ¬ eargs.amount > l'.data) :
    processInEvent cc txnHash ts "TokenMint" eargs logs pool
      = some (mkInArgs cc txnHash ts eargs.toAddr (l.data - eargs.fee)
          (some l.address) none eargs.kappa) := by
  have h1 : ¬("TokenMint" = "TokenWithdrawAndRemove" ∨ "TokenMint" = "TokenMintAndSwap") := by
    decide
  have h2 : ("TokenMint" = "TokenWithdraw" ∨ "TokenMint" = "TokenMint") := by decide
  have h3 : ¬("TokenMint" = "TokenWithdraw") := by decide
  have h4 : ¬(cc.id = 43114 ∧ eargs.token = "0x20A9DC684B4d0407EF8C9A302BEAaA18ee15F656") :=
    fun h => hcc h.1
  have hloop := mintCorrectionLoop_spec eargs.amount logs
    (l0.parsedValue, some eargs.token) i l hget hlt hbefore
  have hvz : (l0.parsedValue == 0) = false := by
    simpa using hv0
  simp only [processInEvent, if_neg h1, if_pos h2, if_neg h3]
  simp [h4, hscan, jsFalsyValue, hvz, hloop]

/-- Witness for the amended C8: on the concrete mint transaction the rescan
stops at the second log (data 7 < amount 100), after passing over the first
log whose data equals the amount. -/
theorem mint_rescan_stops_at_first_strictly_smaller_witness :
    processInEvent ccW "0xt8" 1234 "TokenMint" argsC8 logsC8 poolEmpty
      = some (mkInArgs ccW "0xt8" 1234 argsC8.toAddr ((7 : Int) - argsC8.fee)
          (some "0xTok") none argsC8.kappa) :=
  mint_rescan_stops_at_first_strictly_smaller ccW "0xt8" 1234 argsC8 logsC8 poolEmpty
    ⟨"0xTok", 7, 50⟩ 1 ⟨"0xTok", 7, 50⟩ (by decide) rfl (by decide) rfl (by decide)
    (fun j hj l' hgj => by
      have hj0 : j = 0 := by omega
      subst hj0
      rw [show logsC8.get? 0 = some ⟨"0xA", 100, 100⟩ from rfl] at hgj
      cases hgj
      decide)

/-- Claim C7 (counterexample): a batch whose first event carries an
unregistered topic does not continue with the remaining events — the
classification throw aborts the whole batch, the registered second event is
never processed (its kappa is absent from the store), while the same second
event alone would have produced a record. -/
theorem unknown_topic_aborts_remaining_batch :
    (processEvents tableW ccW dbEmpty [evBad, evGood]).1 = some "UnknownTopic"
    ∧ (processEvents tableW ccW dbEmpty [evBad, evGood]).2 "0xkgood" = none
    ∧ ((processEvents tableW ccW dbEmpty [evGood]).2 "0xkgood").isSome = true := by
  exact ⟨rfl, rfl, rfl⟩

/-- Claim C7 (amended): an event whose first topic is absent from the topic
table makes the classifier throw; the loop body has no per-event handler, so
the failure propagates out of `processEvents`, no record is written for the
offending event, and the remaining events of the batch are not processed —
the store is left exactly as it was before the batch's first event. -/
theorem unknown_topic_propagates_failure (table : List (String × EventTopicInfo))
    (cc : ChainConfig) (db : Db) (ev : EventModel) (rest : List EventModel) (e : String)
    (h : getEventForTopic table ev.topic0 = .error e) :
    processEvents table cc db (ev :: rest) = (some e, db) := by
  simp [processEvents, processEvent, h]

/-- Witness for the amended C7: the concrete unregistered-topic event aborts
a one-element batch with the UnknownTopic failure and an untouched store. -/
theorem unknown_topic_propagates_failure_witness :
    processEvents tableW ccW dbEmpty [evBad] = (some "UnknownTopic", dbEmpty) :=
  unknown_topic_propagates_failure tableW ccW dbEmpty evBad [] "UnknownTopic" rfl

/-- Claim C5: a pass that acquires the lock and encounters an unhandled
failure (a throwing RPC call or an uncaught per-event throw inside event
processing) releases the chain's lock flag and leaves the persisted
checkpoint exactly as it was read, so the next invocation retries the
identical window. -/
theorem failed_pass_releases_lock_keeps_checkpoint (env : ChainEnv) (s : RedisState)
    (db : Db) (hlock : s.isIndexingForward ≠ some "true")
    (hfail : env.getBlockNumberFails = true ∨ env.queryFilterFails = true ∨
      (processEvents env.table env.cc db env.filteredEvents).1.isSome = true) :
    (indexForward env s db).1.isIndexingForward = some "false"
    ∧ (indexForward env s db).1.latestBlockIndexed = s.latestBlockIndexed := by
  simp only [indexForward, if_neg hlock]
  cases h1 : env.getBlockNumberFails with
  | true => simp
  | false =>
    simp only [Bool.false_eq_true, if_false]
    by_cases h2 : s.latestBlockIndexed.getD env.networkLatestBlock = env.networkLatestBlock
    · simp [h2]
    · simp only [if_neg h2]
      cases h3 : env.queryFilterFails with
      | true => simp
      | false =>
        simp only [Bool.false_eq_true, if_false]
        cases h4 : (processEvents env.table env.cc db env.filteredEvents).1.isSome with
        | true => simp [h4]
        | false =>
          exfalso
          rcases hfail with hf | hf | hf
          · rw [h1] at hf; exact Bool.noConfusion hf
          · rw [h3] at hf; exact Bool.noConfusion hf
          · rw [h4] at hf; exact Bool.noConfusion hf

/-- Witness for C5: with the head RPC call throwing, the concrete pass ends
with the lock flag released and the checkpoint still at block 3. -/
theorem failed_pass_releases_lock_keeps_checkpoint_witness :
    (indexForward envF sF dbEmpty).1.isIndexingForward = some "false"
    ∧ (indexForward envF sF dbEmpty).1.latestBlockIndexed = some 3 :=
  failed_pass_releases_lock_keeps_checkpoint envF sF dbEmpty (by decide) (Or.inl rfl)

/-- Claim C6 (counterexample): when the RPC head (50) is behind the stored
checkpoint (100), a fully successful pass writes checkpoint 50 — strictly
below the value read at the start of the pass, breaking monotonicity. -/
theorem checkpoint_decreases_when_head_behind :
    (indexForward envD sM dbEmpty).1.latestBlockIndexed = some 50
    ∧ checkpointRead envD sM = 100
    ∧ 50 < 100 := by
  exact ⟨rfl, rfl, by decide⟩

/-- Claim C6 (amended): provided the network head reported at the start of a
pass is at least the checkpoint value read (the normal situation; a head
behind the checkpoint violates it), every checkpoint value the pass leaves
behind is at least the value read: the pass either keeps the stored value or
writes `min(head, read + 500) ≥ read`. -/
theorem checkpoint_monotone_of_head_ahead (env : ChainEnv) (s : RedisState) (db : Db)
    (hread : checkpointRead env s ≤ env.networkLatestBlock) :
    ∀ n, (indexForward env s db).1.latestBlockIndexed = some n →
      checkpointRead env s ≤ n := by
  intro n hn
  simp only [indexForward] at hn
  split at hn
  · simp only at hn
    simp [checkpointRead, hn]
  · split at hn
    · simp only at hn
      simp [checkpointRead, hn]
    · split at hn
      · simp only at hn
        simp [checkpointRead, hn]
      · split at hn
        · simp only at hn
          simp [checkpointRead, hn]
        · split at hn
          · simp only at hn
            simp [checkpointRead, hn]
          · simp only [Option.some.injEq] at hn
            subst hn
            simp only [checkpointRead] at hread ⊢
            omega

/-- Witness for the amended C6: checkpoint 100, head 1000; the pass writes
600 = min(1000, 100 + 500), and indeed 100 ≤ 600. -/
theorem checkpoint_monotone_of_head_ahead_witness :
    checkpointRead envM sM ≤ 600 :=
  checkpoint_monotone_of_head_ahead envM sM dbEmpty (by decide) 600 rfl

/-- Claim C1 (counterexample): on a chain with no persisted checkpoint
(head 100), the pass terminates without creating the checkpoint: the key is
still absent afterwards, not seeded to the chain head. -/
theorem firstRun_writes_no_checkpoint :
    (indexForward envC1 s0 dbEmpty).1.latestBlockIndexed = none
    ∧ (indexForward envC1 s0 dbEmpty).1.latestBlockIndexed ≠ some envC1.networkLatestBlock := by
  exact ⟨rfl, by decide⟩

/-- Claim C1 (amended): for a chain with no persisted checkpoint, a pass
seeds the checkpoint in memory to the current chain head (so no retroactive
indexing happens), finds itself up to date, and returns with the lock
released and no checkpoint persisted — the key stays absent, and a
subsequent pass repeats the same in-memory seeding instead of advancing from
a persisted value. -/
theorem no_checkpoint_pass_persists_none (env : ChainEnv) (s : RedisState) (db : Db)
    (h1 : s.latestBlockIndexed = none) (h2 : s.isIndexingForward ≠ some "true") :
    (indexForward env s db).1.latestBlockIndexed = none
    ∧ (indexForward env s db).1.isIndexingForward = some "false" := by
  simp only [indexForward, if_neg h2, h1]
  by_cases hf : env.getBlockNumberFails = true
  · simp [hf]
  · simp [hf]

/-- Witness for the amended C1: the concrete first-ever pass at head 100
ends with no checkpoint key and the lock released. -/
theorem no_checkpoint_pass_persists_none_witness :
    (indexForward envC1 s0 dbEmpty).1.latestBlockIndexed = none
    ∧ (indexForward envC1 s0 dbEmpty).1.isIndexingForward = some "false" :=
  no_checkpoint_pass_persists_none envC1 s0 dbEmpty rfl (by decide)
